import Mathlib

/-!
Verification of the package-identifier generation and shipment-numbering
allocation core of the CP-stitky label service.

The Python sources (`src/app.py`, `src/main.py`, `src/daemon.py`) share one
checksum routine `calculate_pkg_checksum` and an identifier assembler
`create_pkg_id`; `src/app.py` additionally contains the allocator
`create_postal_labe_data`.  The definitions below are a shallow embedding of
those functions: machine integers become `Nat`/`Int`, Python exceptions
(`ValueError` from `int()`, `IndexError` from `package[0]`) become `Option`,
and the database table becomes an explicit store passed through the allocator.
-/

set_option autoImplicit false

namespace CPStitky

/-- The weight list `FACTORS = [1, 8, 6, 4, 2, 3, 5, 9, 7]` from
`calculate_pkg_checksum`. -/
def FACTORS : List Nat := [1, 8, 6, 4, 2, 3, 5, 9, 7]

/-- The loop body of `calculate_pkg_checksum`:
`for factor in fs: number, module = divmod(number, 10); checksum += factor * module`.
The head of `fs` is paired with the least-significant decimal digit. -/
def checksumLoop : List Nat → Nat → Nat
  | [], _ => 0
  | f :: fs, n => f * (n % 10) + checksumLoop fs (n / 10)

/-- The branch cascade at the end of `calculate_pkg_checksum`:
`if a > 1: return 11 - a; if a == 1: return 0; if a == 0: return 5`.
A Python function falls through to `None` when no branch fires, hence the
`Option` result. -/
def checkDigitBranch (a : Nat) : Option Nat :=
  if a > 1 then some (11 - a)
  else if a = 1 then some 0
  else if a = 0 then some 5
  else none

/-- `calculate_pkg_checksum(number)` from `src/app.py` lines 22-34 (identical
in `src/main.py` and `src/daemon.py`): the loop runs over `FACTORS[::-1]`,
then `a = checksum % 11` is mapped through the branch cascade. -/
def calculate_pkg_checksum (number : Nat) : Option Nat :=
  checkDigitBranch (checksumLoop FACTORS.reverse number % 11)

/-- Little-endian decimal digits of `n`, with explicit structural fuel
(recursion stops when the number reaches 0, so any fuel at least the digit
count gives the full digit list). -/
def digitsLEAux : Nat → Nat → List Nat
  | _, 0 => []
  | 0, _ + 1 => []
  | fuel + 1, n + 1 => (n + 1) % 10 :: digitsLEAux fuel ((n + 1) / 10)

/-- Little-endian decimal digits of `n`; fuel `n` always suffices. -/
def digitsLE (n : Nat) : List Nat := digitsLEAux n n

/-- Character list of the decimal representation of a natural number, most
significant digit first. -/
def natDecimalChars (n : Nat) : List Char :=
  if n = 0 then ['0']
  else ((digitsLE n).map fun d => Char.ofNat (48 + d)).reverse

/-- Decimal representation of a natural number, as Python `'{:d}'.format(n)`
produces it. -/
def natDecimalStr (n : Nat) : String :=
  String.mk (natDecimalChars n)

/-- Character list of Python `'{:0{}d}'.format(n, w)` for a non-negative `n`:
the decimal representation left-padded with `'0'` up to width `w`.  Python
never truncates: when the representation is longer than `w` it is returned
whole. -/
def formatZeroPadChars (n w : Nat) : List Char :=
  List.replicate (w - (natDecimalChars n).length) '0' ++ natDecimalChars n

/-- Python `'{:0{}d}'.format(n, w)` for a non-negative `n`. -/
def formatZeroPad (n w : Nat) : String :=
  String.mk (formatZeroPadChars n w)

/-- Python `int(s)` restricted to plain decimal-digit strings (the only shape
the generator ever builds): `none` models the `ValueError` raised on an empty
or non-digit string. -/
def parseNat (s : String) : Option Nat :=
  if s.data ≠ [] ∧ ∀ c ∈ s.data, c.isDigit then
    some (s.data.foldl (fun acc c => 10 * acc + (c.toNat - 48)) 0)
  else none

/-- Python `'{}'.format(x)` applied to the checksum result, which is either an
int or `None`. -/
def pyFormatOptNat : Option Nat → String
  | some c => natDecimalStr c
  | none => "None"

/-- The `service` database row consumed by `create_pkg_id` in `src/app.py`:
fields `prefix`, `postfix`, `modul`, `offset`, `padding`, `submitter_id`
(the first two renamed `pre`/`post` here).  `modul = 0` would raise
`ZeroDivisionError` in Python; the claims all assume `modul > 0`. -/
structure Service where
  pre : String
  post : String
  modul : Nat
  offset : Nat
  padding : Nat
  submitter_id : String

/-- The reduction step `pkg_number = (pkg_number % modul) + offset` of
`create_pkg_id` (`src/app.py` line 43).  Python's `%` with a positive modulus
agrees with `Int.emod`. -/
def reducedSeq (service : Service) (pkg_number : Int) : Nat :=
  (pkg_number % (service.modul : Int)).toNat + service.offset

/-- The field width `padding - len(submitter_id)` used by the zero-pad format
in `create_pkg_id`. -/
def availWidth (service : Service) : Nat :=
  service.padding - service.submitter_id.data.length

/-- The local `tmp_pkg_number` of `create_pkg_id` (`src/app.py` line 44). -/
def tmpPkgNumber (service : Service) (pkg_number : Int) : String :=
  formatZeroPad (reducedSeq service pkg_number) (availWidth service)

/-- `create_pkg_id(service, pkg_number)` from `src/app.py` lines 36-48:
reduce the sequence number, zero-pad it, compute the checksum over
`submitter_id + tmp_pkg_number`, and assemble the identifier.  `none` models
the `ValueError` of `int()` on a non-digit `submitter_id`. -/
def create_pkg_id (service : Service) (pkg_number : Int) : Option String :=
  match parseNat (service.submitter_id ++ tmpPkgNumber service pkg_number) with
  | none => none
  | some m =>
    some (service.pre ++ service.submitter_id ++ tmpPkgNumber service pkg_number
      ++ pyFormatOptNat (calculate_pkg_checksum m) ++ service.post)

/-- `PKG_PADDING = 9` from `src/main.py` line 245. -/
def PKG_PADDING : Nat := 9

/-- `create_pkg_id(prefix, postfix, submitter_id, pkg_number)` from
`src/main.py` lines 287-293: the same assembly as in `src/app.py`, but with
the fixed `PKG_PADDING` width and no modular reduction of the sequence
number. -/
def create_pkg_id_main (pre post submitter_id : String) (pkg_number : Nat) :
    Option String :=
  match parseNat (submitter_id ++ formatZeroPad pkg_number
      (PKG_PADDING - submitter_id.data.length)) with
  | none => none
  | some m =>
    some (pre ++ submitter_id ++ formatZeroPad pkg_number
      (PKG_PADDING - submitter_id.data.length)
      ++ pyFormatOptNat (calculate_pkg_checksum m) ++ post)

/-- A row of the `ziskej_packages` table: auto-assigned primary key `id`,
the token key, and the `added` timestamp. -/
structure PkgRecord where
  id : Nat
  token : String
  added : Nat
deriving DecidableEq

/-- The storage operations the allocator issues against the
`ziskej_packages` table: `filter_by(token=token).all()` and
`insert(token=token, added=...)` followed by `commit()`. -/
structure PkgStore (σ : Type) where
  filterByToken : σ → String → List PkgRecord
  insertPkg : σ → String → Nat → σ

/-- Lines 101-103 of `src/app.py`: `pkg_id_base = 2 * package.id;
pkg_id_d2s = pkg_id_base; pkg_id_s2d = pkg_id_base + 1`. -/
def seqPairOfIndex (i : Nat) : Nat × Nat := (2 * i, 2 * i + 1)

/-- The sequence-number allocation core of `create_postal_labe_data`
(`src/app.py` lines 84-116): select by token; when no row is found, insert
one and re-select; then take `package[0]` (an empty list at that point is the
`IndexError` case, modelled as `none`) and derive the forward/return pair
from its `id`.  Returns the pair together with the updated store state. -/
def create_postal_labe_data {σ : Type} (S : PkgStore σ) (db : σ)
    (token : String) (now : Nat) : Option ((Nat × Nat) × σ) :=
  let package := S.filterByToken db token
  let step : List PkgRecord × σ :=
    if package.length < 1 then
      let db2 := S.insertPkg db token now
      (S.filterByToken db2 token, db2)
    else (package, db)
  match step.1 with
  | [] => none
  | p :: _ => some (seqPairOfIndex p.id, step.2)

/-- Concrete relational-store state: the table rows in insertion order plus
the auto-increment counter for the primary key. -/
structure DBState where
  rows : List PkgRecord
  nextId : Nat
deriving DecidableEq

/-- `filter_by(token=token).all()` on the concrete store: the rows whose
token column matches, in table order. -/
def dbFilterByToken (db : DBState) (t : String) : List PkgRecord :=
  db.rows.filter fun r => r.token == t

/-- `insert(token=token, added=now)` on the concrete store: append a row
under the next auto-increment id. -/
def dbInsert (db : DBState) (t : String) (now : Nat) : DBState :=
  ⟨db.rows ++ [⟨db.nextId, t, now⟩], db.nextId + 1⟩

/-- The concrete store the deployed allocator runs against. -/
def listStore : PkgStore DBState := ⟨dbFilterByToken, dbInsert⟩

/-- A store whose reads always come back empty: the storage-unavailable
behaviour the failure-semantics claim quantifies over. -/
def emptyReadStore : PkgStore Unit := ⟨fun _ _ => [], fun db _ _ => db⟩

/-- The checksum weighting exactly as the specification words it: weight
`FACTORS[i % 9]` on the `i`-th digit counted from the least-significant end,
cyclically over all digits of the number. -/
def specCyclicSum (n : Nat) : Nat :=
  (((digitsLE n).enum).map fun p => FACTORS.getD (p.1 % 9) 0 * p.2).sum

/-! ### Basic facts about the embedded string primitives -/

theorem string_data_mk (l : List Char) : (String.mk l).data = l := rfl

theorem string_data_append (s t : String) : (s ++ t).data = s.data ++ t.data := by
  cases s
  cases t
  rfl

/-! ### The checksum loop as a closed-form weighted sum -/

theorem checksumLoop_eq_sum (fs : List Nat) : ∀ n : Nat,
    checksumLoop fs n =
      Finset.sum (Finset.range fs.length) fun i => fs.getD i 0 * (n / 10 ^ i % 10) := by
  induction fs with
  | nil => intro n; simp [checksumLoop]
  | cons f fs ih =>
    intro n
    rw [checksumLoop, ih (n / 10), List.length_cons, Finset.sum_range_succ', add_comm]
    congr 1
    · apply Finset.sum_congr rfl
      intro i _
      simp only [List.getD_cons_succ]
      congr 1
      rw [Nat.div_div_eq_div_mul, pow_succ, Nat.mul_comm (10 ^ i) 10]
    · simp

theorem checksumLoop_mod (fs : List Nat) : ∀ n : Nat,
    checksumLoop fs (n % 10 ^ fs.length) = checksumLoop fs n := by
  induction fs with
  | nil => intro n; rfl
  | cons f fs ih =>
    intro n
    have h1 : n % 10 ^ (fs.length + 1) % 10 = n % 10 :=
      Nat.mod_mod_of_dvd n (dvd_pow_self 10 (Nat.succ_ne_zero fs.length))
    have h2 : n % 10 ^ (fs.length + 1) / 10 = n / 10 % 10 ^ fs.length := by
      rw [pow_succ, Nat.mul_comm (10 ^ fs.length) 10, Nat.mod_mul_right_div_self]
    rw [checksumLoop, checksumLoop, List.length_cons, h1, h2, ih (n / 10)]

/-- Claim C1, counterexample: at the one-digit input `1` the generator's
weighted sum is `7` (the loop pairs weight `7`, not weight `1`, with the
least-significant digit), while the weighting worded by the specification
gives `1`; the resulting check digits differ as well (`4` versus `0`). -/
theorem checksum_weight_order_cex :
    checksumLoop FACTORS.reverse 1 % 11 = 7 ∧ specCyclicSum 1 % 11 = 1 ∧
      checksumLoop FACTORS.reverse 1 % 11 ≠ specCyclicSum 1 % 11 ∧
      calculate_pkg_checksum 1 = some 4 ∧
      checkDigitBranch (specCyclicSum 1 % 11) = some 0 := by
  decide

/-- Claim C1 (amended): the generator's checksum is the weighted sum, mod 11,
in which the weight sequence `[1, 8, 6, 4, 2, 3, 5, 9, 7]` is applied
REVERSED from the least-significant digit (weight 7 on the last digit,
weight 9 on the second-to-last, ..., weight 1 on the ninth-from-last), and
only the 9 least-significant digits participate: there is no cyclic
wrap-around for longer digit strings. -/
theorem checksum_weighted_sum_reversed (n : Nat) :
    checksumLoop FACTORS.reverse n % 11 =
      (Finset.sum (Finset.range 9) fun i =>
        FACTORS.reverse.getD i 0 * (n / 10 ^ i % 10)) % 11 := by
  have h := checksumLoop_eq_sum FACTORS.reverse n
  have hl : FACTORS.reverse.length = 9 := rfl
  rw [hl] at h
  rw [h]

/-- Claim C4: for every weighted digit sum `s`, the branch cascade of
`calculate_pkg_checksum` returns `11 - (s % 11)` when `s % 11 > 1`, the digit
`0` when `s % 11 = 1` (the branch is implemented, not dead code), and the
digit `5` when `s % 11 = 0`; in particular it never falls through to
Python's implicit `None`. -/
theorem check_digit_mapping (s : Nat) :
    checkDigitBranch (s % 11) =
      some (if 1 < s % 11 then 11 - s % 11 else if s % 11 = 1 then 0 else 5) := by
  have h : s % 11 < 11 := Nat.mod_lt _ (by norm_num)
  revert h
  generalize s % 11 = a
  intro h
  interval_cases a <;> rfl

/-- Claim C10: the checksum function returns the same value for `n` and for
`n % 10 ^ 9`: exactly the 9 least-significant decimal digits participate in
the weighted sum, and any higher-order digits are silently ignored. -/
theorem checksum_ignores_high_digits (n : Nat) :
    calculate_pkg_checksum n = calculate_pkg_checksum (n % 10 ^ 9) := by
  have h := checksumLoop_mod FACTORS.reverse n
  have hl : FACTORS.reverse.length = 9 := rfl
  rw [hl] at h
  rw [calculate_pkg_checksum, calculate_pkg_checksum, h]

/-- Claim C3, counterexample: for prefix `"DR"`, postfix `"M"`, submitter id
`"54"`, padding 9 and sequence number 1234567 the code produces
`"DR5412345671M"` (13 characters, digit region `"1234567"` kept whole),
not `"DR54123456"` followed by one checksum digit and `"M"` (12 characters):
the specification's expected string drops the final digit `7` of the padded
region, and this holds whether the checksum digit is the one the
specification's weighting yields (`9`) or the one the code computes (`1`). -/
theorem concrete_example_cex :
    create_pkg_id_main "DR" "M" "54" 1234567 = some "DR5412345671M" ∧
      checkDigitBranch (specCyclicSum 541234567 % 11) = some 9 ∧
      calculate_pkg_checksum 541234567 = some 1 ∧
      "DR5412345671M" ≠ "DR541234569M" ∧
      "DR5412345671M" ≠ "DR541234561M" ∧
      ("DR5412345671M").data.length = 13 ∧ ("DR541234569M").data.length = 12 := by
  decide

/-- Claim C3 (amended): for the concrete scheme with prefix `"DR"`, postfix
`"M"`, submitter id `"54"`, padding 9 and sequence number 1234567, the
generated identifier equals `"DR541234567"` (prefix, submitter id and the
whole 7-digit padded region) followed by the single checksum digit the code's
algorithm yields for `"541234567"` (namely `1`), followed by `"M"`. -/
theorem concrete_example_identifier :
    create_pkg_id_main "DR" "M" "54" 1234567 =
        some ("DR" ++ "54" ++ "1234567" ++ "1" ++ "M") ∧
      calculate_pkg_checksum 541234567 = some 1 ∧
      ("DR" ++ "54" ++ "1234567" ++ "1" ++ "M") = "DR5412345671M" := by
  decide

/-- Claim C5: for every scheme with positive modulus, every sequence number
`n` and every integer `k`, the generator produces the identical identifier
for `n` and for `n + k * modul`, because it first reduces its input as
`(pkg_number % modul) + offset`. -/
theorem create_pkg_id_mod_reduction (service : Service) (n k : Int)
    (h : 0 < service.modul) :
    create_pkg_id service n =
      create_pkg_id service (n + k * (service.modul : Int)) := by
  have hred : reducedSeq service (n + k * (service.modul : Int)) =
      reducedSeq service n := by
    rw [reducedSeq, reducedSeq, Int.add_mul_emod_self]
  rw [create_pkg_id, create_pkg_id, tmpPkgNumber, tmpPkgNumber, hred]

/-- Witness for `create_pkg_id_mod_reduction` at the scheme with modulus 7:
sequence numbers 5 and 5 + 3·7 generate the same identifier. -/
theorem create_pkg_id_mod_reduction_witness :
    0 < (7 : Nat) ∧
      create_pkg_id ⟨"DR", "M", 7, 0, 9, "54"⟩ 5 =
        create_pkg_id ⟨"DR", "M", 7, 0, 9, "54"⟩ (5 + 3 * ((7 : Nat) : Int)) :=
  ⟨by decide, create_pkg_id_mod_reduction ⟨"DR", "M", 7, 0, 9, "54"⟩ 5 3 (by decide)⟩

/-! ### Length and digit facts about the decimal formatting -/

theorem digitsLEAux_len_le : ∀ fuel n w : Nat, n < 10 ^ w →
    (digitsLEAux fuel n).length ≤ w := by
  intro fuel
  induction fuel with
  | zero =>
    intro n w _
    cases n <;> simp [digitsLEAux]
  | succ f ih =>
    intro n w hn
    match n with
    | 0 => simp [digitsLEAux]
    | m + 1 =>
      match w with
      | 0 =>
        rw [pow_zero] at hn
        omega
      | w' + 1 =>
        rw [digitsLEAux, List.length_cons]
        have hdiv : (m + 1) / 10 < 10 ^ w' := by
          rw [Nat.div_lt_iff_lt_mul (by norm_num)]
          calc m + 1 < 10 ^ (w' + 1) := hn
          _ = 10 ^ w' * 10 := pow_succ 10 w'
        have := ih ((m + 1) / 10) w' hdiv
        omega

theorem digitsLEAux_len_gt : ∀ fuel n w : Nat, n ≤ fuel → 10 ^ w ≤ n →
    w < (digitsLEAux fuel n).length := by
  intro fuel
  induction fuel with
  | zero =>
    intro n w hfuel hw
    have hn : n = 0 := Nat.le_zero.mp hfuel
    subst hn
    exact absurd hw (Nat.pos_of_ne_zero (pow_ne_zero w (by norm_num))).not_le
  | succ f ih =>
    intro n w hfuel hw
    match n with
    | 0 => exact absurd hw (Nat.pos_of_ne_zero (pow_ne_zero w (by norm_num))).not_le
    | m + 1 =>
      rw [digitsLEAux, List.length_cons]
      match w with
      | 0 => omega
      | w' + 1 =>
        have hdiv : 10 ^ w' ≤ (m + 1) / 10 := by
          rw [Nat.le_div_iff_mul_le (by norm_num)]
          calc 10 ^ w' * 10 = 10 ^ (w' + 1) := (pow_succ 10 w').symm
          _ ≤ m + 1 := hw
        have hfd : (m + 1) / 10 ≤ f := by
          have := Nat.div_lt_self (Nat.succ_pos m) (by norm_num : 1 < 10)
          omega
        have := ih ((m + 1) / 10) w' hfd hdiv
        omega

theorem digitsLEAux_lt_ten : ∀ fuel n d : Nat, d ∈ digitsLEAux fuel n → d < 10 := by
  intro fuel
  induction fuel with
  | zero =>
    intro n d hd
    cases n <;> simp [digitsLEAux] at hd
  | succ f ih =>
    intro n d hd
    match n with
    | 0 => simp [digitsLEAux] at hd
    | m + 1 =>
      rw [digitsLEAux] at hd
      rcases List.mem_cons.mp hd with h | h
      · subst h
        exact Nat.mod_lt _ (by norm_num)
      · exact ih ((m + 1) / 10) d h

theorem char_ofNat_digit {d : Nat} (h : d < 10) :
    (Char.ofNat (48 + d)).isDigit = true := by
  interval_cases d <;> decide

theorem natDecimalChars_ne_nil (n : Nat) : natDecimalChars n ≠ [] := by
  rw [natDecimalChars]
  split
  · simp
  · rename_i hn
    match n, hn with
    | m + 1, _ => simp [digitsLE, digitsLEAux]

theorem natDecimalChars_digits (n : Nat) : ∀ c ∈ natDecimalChars n, c.isDigit := by
  rw [natDecimalChars]
  split
  · intro c hc
    rw [List.mem_singleton] at hc
    subst hc
    decide
  · intro c hc
    rw [List.mem_reverse, List.mem_map] at hc
    obtain ⟨d, hd, rfl⟩ := hc
    exact char_ofNat_digit (digitsLEAux_lt_ten n n d hd)

theorem natDecimalChars_len_le {n w : Nat} (h0 : 0 < w) (h : n < 10 ^ w) :
    (natDecimalChars n).length ≤ w := by
  rw [natDecimalChars]
  split
  · simpa using h0
  · rw [List.length_reverse, List.length_map]
    exact digitsLEAux_len_le n n w h

theorem natDecimalChars_len_gt {n w : Nat} (h : 10 ^ w ≤ n) :
    w < (natDecimalChars n).length := by
  have hn : n ≠ 0 := by
    intro h0
    subst h0
    exact absurd h (Nat.pos_of_ne_zero (pow_ne_zero w (by norm_num))).not_le
  rw [natDecimalChars, if_neg hn, List.length_reverse, List.length_map]
  exact digitsLEAux_len_gt n n w (le_refl n) h

theorem formatZeroPadChars_digits (n w : Nat) :
    ∀ c ∈ formatZeroPadChars n w, c.isDigit := by
  intro c hc
  rw [formatZeroPadChars] at hc
  rcases List.mem_append.mp hc with h | h
  · rw [List.eq_of_mem_replicate h]
    decide
  · exact natDecimalChars_digits n c h

theorem formatZeroPadChars_ne_nil (n w : Nat) : formatZeroPadChars n w ≠ [] := by
  rw [formatZeroPadChars]
  intro h
  rcases List.append_eq_nil.mp h with ⟨_, h2⟩
  exact natDecimalChars_ne_nil n h2

theorem formatZeroPadChars_len_eq {n w : Nat} (h0 : 0 < w) (h : n < 10 ^ w) :
    (formatZeroPadChars n w).length = w := by
  rw [formatZeroPadChars, List.length_append, List.length_replicate]
  have := natDecimalChars_len_le h0 h
  omega

theorem formatZeroPadChars_len_gt {n w : Nat} (h : 10 ^ w ≤ n) :
    w < (formatZeroPadChars n w).length := by
  rw [formatZeroPadChars, List.length_append, List.length_replicate]
  have := natDecimalChars_len_gt h
  omega

/-! ### Parsing and assembly facts -/

theorem parseNat_eq_some (s : String) (hne : s.data ≠ [])
    (hd : ∀ c ∈ s.data, c.isDigit) :
    parseNat s = some (s.data.foldl (fun acc c => 10 * acc + (c.toNat - 48)) 0) := by
  rw [parseNat, if_pos ⟨hne, hd⟩]

theorem create_pkg_id_eq_of_parse (service : Service) (n : Int) (m : Nat)
    (h : parseNat (service.submitter_id ++ tmpPkgNumber service n) = some m) :
    create_pkg_id service n =
      some (service.pre ++ service.submitter_id ++ tmpPkgNumber service n
        ++ pyFormatOptNat (calculate_pkg_checksum m) ++ service.post) := by
  rw [create_pkg_id, h]

theorem checkDigit_exists (s : Nat) :
    ∃ d, checkDigitBranch (s % 11) = some d ∧ d ≤ 9 := by
  have h : s % 11 < 11 := Nat.mod_lt _ (by norm_num)
  revert h
  generalize s % 11 = a
  intro h
  interval_cases a <;> exact ⟨_, rfl, by decide⟩

theorem parse_of_generator_input (service : Service) (n : Int)
    (hdig : ∀ c ∈ service.submitter_id.data, c.isDigit) :
    ∃ m, parseNat (service.submitter_id ++ tmpPkgNumber service n) = some m := by
  refine ⟨_, parseNat_eq_some _ ?_ ?_⟩
  · rw [string_data_append]
    intro h
    rcases List.append_eq_nil.mp h with ⟨_, h2⟩
    exact formatZeroPadChars_ne_nil _ _ h2
  · intro c hc
    rw [string_data_append] at hc
    rcases List.mem_append.mp hc with h | h
    · exact hdig c h
    · exact formatZeroPadChars_digits _ _ c h

/-- Claim C2, counterexample: for the scheme with padding 3, submitter id
`"54"` (available width 1) and reduced sequence number 100 (three digits),
the generator does not fail: it returns the identifier `"DR541006M"`, whose
digit region `"100"` is silently widened beyond the configured width. -/
theorem create_pkg_id_overflow_cex :
    10 ^ availWidth ⟨"DR", "M", 10000, 0, 3, "54"⟩ ≤
        reducedSeq ⟨"DR", "M", 10000, 0, 3, "54"⟩ 100 ∧
      create_pkg_id ⟨"DR", "M", 10000, 0, 3, "54"⟩ 100 = some "DR541006M" := by
  decide

/-- Claim C2 (amended): for every scheme with a digit-only submitter id and
every sequence number whose reduced value has more decimal digits than the
available width `padding - len(submitter_id)`, identifier generation does NOT
fail: it returns an identifier string whose zero-padded digit region is wider
than the available width — the overflow is neither truncated nor detected. -/
theorem create_pkg_id_overflow_widens (service : Service) (n : Int)
    (hdig : ∀ c ∈ service.submitter_id.data, c.isDigit)
    (hover : 10 ^ availWidth service ≤ reducedSeq service n) :
    (∃ ident, create_pkg_id service n = some ident) ∧
      availWidth service < (tmpPkgNumber service n).data.length := by
  constructor
  · obtain ⟨m, hm⟩ := parse_of_generator_input service n hdig
    exact ⟨_, create_pkg_id_eq_of_parse service n m hm⟩
  · exact formatZeroPadChars_len_gt hover

/-- Witness for `create_pkg_id_overflow_widens` at the scheme with padding 3
and submitter id `"54"`, sequence number 100. -/
theorem create_pkg_id_overflow_widens_witness :
    (∀ c ∈ (Service.submitter_id ⟨"DR", "M", 10000, 0, 3, "54"⟩).data, c.isDigit) ∧
      10 ^ availWidth ⟨"DR", "M", 10000, 0, 3, "54"⟩ ≤
        reducedSeq ⟨"DR", "M", 10000, 0, 3, "54"⟩ 100 ∧
      ((∃ ident, create_pkg_id ⟨"DR", "M", 10000, 0, 3, "54"⟩ 100 = some ident) ∧
        availWidth ⟨"DR", "M", 10000, 0, 3, "54"⟩ <
          (tmpPkgNumber ⟨"DR", "M", 10000, 0, 3, "54"⟩ 100).data.length) :=
  ⟨by decide, by decide,
    create_pkg_id_overflow_widens ⟨"DR", "M", 10000, 0, 3, "54"⟩ 100
      (by decide) (by decide)⟩

/-- Claim C6, counterexample: the generator accepts the scheme with padding 3
and submitter id `"54"` at reduced sequence number 100 and returns
`"DR541006M"` (9 characters), but the claimed shape — prefix, submitter id,
exactly `padding - len(submitter_id) = 1` digit, one checksum digit,
postfix — has only 7 characters, so the returned identifier does not have
the claimed shape. -/
theorem identifier_shape_cex :
    create_pkg_id ⟨"DR", "M", 10000, 0, 3, "54"⟩ 100 = some "DR541006M" ∧
      ("DR541006M").data.length = 9 ∧
      ("DR").data.length + ("54").data.length + (3 - ("54").data.length) + 1
        + ("M").data.length = 7 := by
  decide

/-- Claim C6 (amended): for every scheme with a digit-only submitter id,
`padding > len(submitter_id)`, and every sequence number whose reduced value
fits the available width (`reduced < 10 ^ (padding - len(submitter_id))`),
the returned identifier is exactly prefix, then submitter id, then exactly
`padding - len(submitter_id)` decimal digits, then one checksum digit, then
postfix.  Without the fit condition the digit region can be wider. -/
theorem identifier_shape (service : Service) (n : Int)
    (hdig : ∀ c ∈ service.submitter_id.data, c.isDigit)
    (hpad : service.submitter_id.data.length < service.padding)
    (hfit : reducedSeq service n < 10 ^ availWidth service) :
    ∃ digitsPart csPart : String,
      create_pkg_id service n =
        some (service.pre ++ service.submitter_id ++ digitsPart ++ csPart
          ++ service.post) ∧
      digitsPart.data.length = service.padding - service.submitter_id.data.length ∧
      (∀ c ∈ digitsPart.data, c.isDigit) ∧
      csPart.data.length = 1 ∧
      (∀ c ∈ csPart.data, c.isDigit) := by
  obtain ⟨m, hm⟩ := parse_of_generator_input service n hdig
  obtain ⟨d, hd, hd9⟩ := checkDigit_exists (checksumLoop FACTORS.reverse m)
  have hcs : calculate_pkg_checksum m = some d := hd
  have hw : 0 < availWidth service := by
    rw [availWidth]
    omega
  refine ⟨tmpPkgNumber service n, natDecimalStr d, ?_, ?_, ?_, ?_, ?_⟩
  · rw [create_pkg_id_eq_of_parse service n m hm, hcs]
    rfl
  · exact formatZeroPadChars_len_eq hw hfit
  · exact formatZeroPadChars_digits _ _
  · have h1 : d < 10 ^ 1 := by
      rw [pow_one]
      omega
    have := natDecimalChars_len_le (n := d) (w := 1) (by norm_num) h1
    have h2 := natDecimalChars_ne_nil d
    rw [natDecimalStr, string_data_mk]
    match h3 : natDecimalChars d with
    | [] => exact absurd h3 h2
    | [c] => rfl
    | c1 :: c2 :: rest =>
      rw [h3] at this
      simp at this
  · intro c hc
    rw [natDecimalStr, string_data_mk] at hc
    exact natDecimalChars_digits d c hc

/-- Witness for `identifier_shape` at the scheme with padding 9 and submitter
id `"54"`, sequence number 100: the identifier is `"DR5400001002M"`, with
digit region `"0000100"` of the exact width 7. -/
theorem identifier_shape_witness :
    (∀ c ∈ (Service.submitter_id ⟨"DR", "M", 10000, 0, 9, "54"⟩).data, c.isDigit) ∧
      (Service.submitter_id ⟨"DR", "M", 10000, 0, 9, "54"⟩).data.length <
        Service.padding ⟨"DR", "M", 10000, 0, 9, "54"⟩ ∧
      reducedSeq ⟨"DR", "M", 10000, 0, 9, "54"⟩ 100 <
        10 ^ availWidth ⟨"DR", "M", 10000, 0, 9, "54"⟩ ∧
      (∃ digitsPart csPart : String,
        create_pkg_id ⟨"DR", "M", 10000, 0, 9, "54"⟩ 100 =
          some ("DR" ++ "54" ++ digitsPart ++ csPart ++ "M") ∧
        digitsPart.data.length = 9 - ("54").data.length ∧
        (∀ c ∈ digitsPart.data, c.isDigit) ∧
        csPart.data.length = 1 ∧
        (∀ c ∈ csPart.data, c.isDigit)) :=
  ⟨by decide, by decide, by decide,
    identifier_shape ⟨"DR", "M", 10000, 0, 9, "54"⟩ 100
      (by decide) (by decide) (by decide)⟩

/-! ### Allocator facts -/

theorem dbFilterByToken_insert (db : DBState) (t : String) (now : Nat) :
    dbFilterByToken (dbInsert db t now) t =
      dbFilterByToken db t ++ [⟨db.nextId, t, now⟩] := by
  rw [dbFilterByToken, dbFilterByToken, dbInsert]
  rw [List.filter_append]
  simp

/-- Behaviour of the allocator over the concrete relational store: a missing
token inserts a fresh row (whose auto-increment id becomes the allocation
index), a present token reuses the first matching row. -/
theorem create_postal_labe_data_listStore (db : DBState) (t : String) (now : Nat) :
    create_postal_labe_data listStore db t now =
      match dbFilterByToken db t with
      | [] => some (seqPairOfIndex db.nextId, dbInsert db t now)
      | p :: _ => some (seqPairOfIndex p.id, db) := by
  rw [create_postal_labe_data]
  cases hflt : dbFilterByToken db t with
  | nil =>
    have hins := dbFilterByToken_insert db t now
    rw [hflt] at hins
    simp [listStore, hflt, hins]
  | cons p rest =>
    simp [listStore, hflt]

theorem alloc_result_stable (db : DBState) (t : String) (now : Nat)
    (p : Nat × Nat) (db1 : DBState)
    (h : create_postal_labe_data listStore db t now = some (p, db1)) :
    ∃ r rest, dbFilterByToken db1 t = r :: rest ∧ p = seqPairOfIndex r.id := by
  rw [create_postal_labe_data_listStore] at h
  cases hflt : dbFilterByToken db t with
  | nil =>
    rw [hflt] at h
    rw [Option.some_inj, Prod.mk.injEq] at h
    obtain ⟨hp, hdb⟩ := h
    refine ⟨⟨db.nextId, t, now⟩, [], ?_, hp.symm⟩
    rw [← hdb, dbFilterByToken_insert, hflt]
    rfl
  | cons q rest =>
    rw [hflt] at h
    rw [Option.some_inj, Prod.mk.injEq] at h
    obtain ⟨hp, hdb⟩ := h
    exact ⟨q, rest, by rw [← hdb, hflt], hp.symm⟩

theorem alloc_of_found (db : DBState) (t : String) (now : Nat)
    (r : PkgRecord) (rest : List PkgRecord)
    (hflt : dbFilterByToken db t = r :: rest) :
    create_postal_labe_data listStore db t now =
      some (seqPairOfIndex r.id, db) := by
  rw [create_postal_labe_data_listStore, hflt]

/-- Claim C7: calling the allocator twice with the same token — the second
call finding the record persisted by the first — yields the same
forward/return sequence pair both times, since the pair is computed purely
from the persisted record's index as `(2*i, 2*i + 1)`. -/
theorem allocator_idempotent (db : DBState) (t : String) (n1 n2 : Nat)
    (p1 p2 : Nat × Nat) (db1 db2 : DBState)
    (h1 : create_postal_labe_data listStore db t n1 = some (p1, db1))
    (h2 : create_postal_labe_data listStore db1 t n2 = some (p2, db2)) :
    p1 = p2 := by
  obtain ⟨r, rest, hflt, hp1⟩ := alloc_result_stable db t n1 p1 db1 h1
  rw [alloc_of_found db1 t n2 r rest hflt, Option.some_inj, Prod.mk.injEq] at h2
  rw [hp1, h2.1]

/-- Witness for `allocator_idempotent`: starting from the empty table, the
first call with token `"x"` allocates index 0 and returns the pair `(0, 1)`;
the repeated call returns the same pair. -/
theorem allocator_idempotent_witness :
    create_postal_labe_data listStore ⟨[], 0⟩ "x" 5 =
        some ((0, 1), ⟨[⟨0, "x", 5⟩], 1⟩) ∧
      create_postal_labe_data listStore ⟨[⟨0, "x", 5⟩], 1⟩ "x" 9 =
        some ((0, 1), ⟨[⟨0, "x", 5⟩], 1⟩) ∧
      ((0, 1) : Nat × Nat) = (0, 1) :=
  ⟨by decide, by decide,
    allocator_idempotent ⟨[], 0⟩ "x" 5 9 (0, 1) (0, 1)
      ⟨[⟨0, "x", 5⟩], 1⟩ ⟨[⟨0, "x", 5⟩], 1⟩ (by decide) (by decide)⟩

/-- Claim C8: for any two allocation records with distinct indices `i ≠ j`,
the derived sequence-number pairs `(2*i, 2*i+1)` and `(2*j, 2*j+1)` are
disjoint: no component of one equals any component of the other. -/
theorem seq_pairs_disjoint (i j : Nat) (h : i ≠ j) :
    (seqPairOfIndex i).1 ≠ (seqPairOfIndex j).1 ∧
      (seqPairOfIndex i).1 ≠ (seqPairOfIndex j).2 ∧
      (seqPairOfIndex i).2 ≠ (seqPairOfIndex j).1 ∧
      (seqPairOfIndex i).2 ≠ (seqPairOfIndex j).2 := by
  simp only [seqPairOfIndex]
  omega

/-- Witness for `seq_pairs_disjoint` at indices 0 and 1: the blocks
`{0, 1}` and `{2, 3}` do not overlap. -/
theorem seq_pairs_disjoint_witness :
    (0 : Nat) ≠ 1 ∧
      ((seqPairOfIndex 0).1 ≠ (seqPairOfIndex 1).1 ∧
        (seqPairOfIndex 0).1 ≠ (seqPairOfIndex 1).2 ∧
        (seqPairOfIndex 0).2 ≠ (seqPairOfIndex 1).1 ∧
        (seqPairOfIndex 0).2 ≠ (seqPairOfIndex 1).2) :=
  ⟨by decide, seq_pairs_disjoint 0 1 (by decide)⟩

/-- Claim C9: over any store behaviour in which both the initial select and
the re-read after the insert come back empty, the allocator returns no
result at all (the `package[0]` subscript raises `IndexError`): it never
fabricates a sequence-number pair outside the persisted mapping and never
returns a partial result. -/
theorem allocator_fails_when_reread_empty (σ : Type) (S : PkgStore σ)
    (db : σ) (t : String) (now : Nat)
    (h1 : S.filterByToken db t = [])
    (h2 : S.filterByToken (S.insertPkg db t now) t = []) :
    create_postal_labe_data S db t now = none := by
  rw [create_postal_labe_data]
  simp [h1, h2]

/-- Witness for `allocator_fails_when_reread_empty` over the store whose
reads always come back empty. -/
theorem allocator_fails_when_reread_empty_witness :
    emptyReadStore.filterByToken () "x" = [] ∧
      emptyReadStore.filterByToken (emptyReadStore.insertPkg () "x" 0) "x" = [] ∧
      create_postal_labe_data emptyReadStore () "x" 0 = none :=
  ⟨rfl, rfl, allocator_fails_when_reread_empty Unit emptyReadStore () "x" 0 rfl rfl⟩

end CPStitky
